import Mathlib

/-!
Shallow embedding of the ride lifecycle engine of
`app/crud/ride.py` (class `RideCrud`): the status universe `STATUSES`,
the role-keyed transition table `ALLOWED_TRANSITIONS`, the atomic
conditional-update-plus-audit-insert operation `change_status`, and the
creation operation `create` with its genesis history entry.

The relational store is modelled as an explicit state: a list of ride
rows plus an append-only list of history rows.  The single SQL statement
of `change_status` (CTEs `prev` / `upd` / `ins`) is modelled by its
sequential semantics on that state: read the row's status, update the
row if the status is in the allowed-from set, and append exactly one
history row if and only if the update matched.  `NOW()` /
`datetime.utcnow()` are modelled by an explicit `now : Nat` argument.
Python `None` becomes `Option.none`; a raised `ValueError` becomes
`Except.error`.
-/

/-- One row of the `rides` table, with the columns returned by the
`RETURNING` list of the update CTE in `RideCrud.change_status`.
Timestamps are abstract clock values (`Nat`), coordinates and fares are
integers, JSON payloads are their serialized text. -/
structure Ride where
  id : Nat
  client_id : Nat
  driver_profile_id : Option Nat
  status : String
  status_reason : Option String
  scheduled_at : Option Nat
  started_at : Option Nat
  completed_at : Option Nat
  canceled_at : Option Nat
  cancellation_reason : Option String
  pickup_address : String
  pickup_lat : Int
  pickup_lng : Int
  dropoff_address : String
  dropoff_lat : Int
  dropoff_lng : Int
  expected_fare : Int
  expected_fare_snapshot : Option String
  driver_fare : Option Int
  actual_fare : Option Int
  distance_meters : Option Int
  duration_seconds : Option Int
  transaction_id : Option Nat
  commission_id : Option Nat
  is_anomaly : Bool
  anomaly_reason : Option String
  ride_metadata : Option String
  created_at : Nat
  updated_at : Nat
  deriving Repr, DecidableEq

/-- One row of the `ride_status_history` table, with the columns of the
insert CTE in `RideCrud.change_status` and of the genesis insert in
`RideCrud.create`. -/
structure RideStatusHistory where
  ride_id : Nat
  from_status : Option String
  to_status : String
  changed_by : Nat
  actor_role : String
  reason : Option String
  meta : Option String
  created_at : Nat
  deriving Repr, DecidableEq

/-- The relational store consumed by `RideCrud`: the `rides` table and
the append-only `ride_status_history` table. -/
structure Store where
  rides : List Ride
  history : List RideStatusHistory
  deriving Repr, DecidableEq

def emptyStore : Store := { rides := [], history := [] }

/-- The request body consumed by `RideCrud.change_status`
(`RideStatusChangeRequest`); the schema module is not in the sources, so
the fields are exactly those the engine reads: `to_status`,
`actor_role`, `actor_id`, `reason`, `meta`. -/
structure RideStatusChangeRequest where
  to_status : String
  actor_role : String
  actor_id : Nat
  reason : Option String
  meta : Option String
  deriving Repr, DecidableEq

/-- Modelled from the spec: `app/schemas/ride.py` (`RideCreate`) is not
under the sources; its fields follow the spec's creation signature
`create_ride(client_id, pickup_address, pickup_lat, pickup_lng,
dropoff_address, dropoff_lat, dropoff_lng, expected_fare,
expected_fare_snapshot)`, which in particular has no `status` field, so
`values.setdefault("status", "requested")` in `RideCrud.create` always
fires. -/
structure RideCreate where
  client_id : Nat
  pickup_address : String
  pickup_lat : Int
  pickup_lng : Int
  dropoff_address : String
  dropoff_lat : Int
  dropoff_lng : Int
  expected_fare : Int
  expected_fare_snapshot : Option String
  deriving Repr, DecidableEq

/-- The fixed status universe `STATUSES` of `app/crud/ride.py`. -/
def STATUSES : List String :=
  ["requested", "driver_assigned", "accepted", "arrived", "started",
   "completed", "canceled"]

/-- The role-keyed transition table `ALLOWED_TRANSITIONS` of
`app/crud/ride.py`, as an association list
role ↦ (current status ↦ permitted target statuses). -/
def ALLOWED_TRANSITIONS : List (String × List (String × List String)) :=
  [("client",
     [("requested", ["canceled"]),
      ("driver_assigned", ["canceled"]),
      ("accepted", ["canceled"])]),
   ("driver",
     [("driver_assigned", ["accepted", "canceled"]),
      ("accepted", ["arrived", "canceled"]),
      ("arrived", ["started", "canceled"]),
      ("started", ["completed", "canceled"])]),
   ("system",
     [("requested", ["driver_assigned", "canceled"]),
      ("driver_assigned", ["accepted", "canceled"]),
      ("accepted", ["arrived", "canceled"]),
      ("arrived", ["started", "canceled"]),
      ("started", ["completed", "canceled"])])]

/-- `ALLOWED_TRANSITIONS.get(role, \x7b\x7d)` of the source. -/
def roleMap (role : String) : List (String × List String) :=
  (ALLOWED_TRANSITIONS.lookup role).getD []

/-- The reverse query of `change_status`:
`[from_s for from_s, tos in role_map.items() if to_status in tos]`. -/
def allowedFrom (role to_status : String) : List String :=
  (roleMap role).filterMap
    (fun p => if to_status ∈ p.2 then some p.1 else none)

/-- The forward reading of the same table: the permitted target set for
one (role, current status) pair, empty when the pair is not listed. -/
def forwardLookup (role current : String) : List String :=
  ((roleMap role).lookup current).getD []

/-- `json.dumps(req.meta if req.meta is not None else \x7b\x7d)`:
the request's metadata is carried as serialized text, an absent dict
serializing to the empty JSON object. -/
def jsonDumps (meta : Option String) : String :=
  meta.getD "\x7b\x7d"

/-- The row mutation of the update CTE of `change_status`: the new
status and `status_reason` are written unconditionally, the three
timestamps and `cancellation_reason` only when the target status is the
corresponding one, and `updated_at` always. -/
def applyUpdate (r : Ride) (to_status : String) (reason : Option String)
    (now : Nat) : Ride :=
  { r with
    status := to_status
    status_reason := reason
    started_at := if to_status = "started" then some now else r.started_at
    completed_at := if to_status = "completed" then some now else r.completed_at
    canceled_at := if to_status = "canceled" then some now else r.canceled_at
    cancellation_reason :=
      if to_status = "canceled" then reason else r.cancellation_reason
    updated_at := now }

/-- The history row produced by the insert CTE of `change_status`. -/
def historyRow (ride_id : Nat) (from_status : String)
    (req : RideStatusChangeRequest) (now : Nat) : RideStatusHistory :=
  { ride_id := ride_id
    from_status := some from_status
    to_status := req.to_status
    changed_by := req.actor_id
    actor_role := req.actor_role
    reason := req.reason
    meta := some (jsonDumps req.meta)
    created_at := now }

/-- `RideCrud.change_status`.  A raised `ValueError("invalid status")`
is `Except.error "invalid status"`; a returned `None` is
`Except.ok (store, none)` with the store untouched; success returns the
mutated store and the updated row.  The single SQL statement (`prev`
locks and reads the current status, `upd` updates conditionally on the
status being in `allowed_from`, `ins` appends one audit row iff `upd`
matched) is modelled by its sequential semantics. -/
def change_status (store : Store) (now : Nat) (ride_id : Nat)
    (req : RideStatusChangeRequest) :
    Except String (Store × Option Ride) :=
  if req.to_status ∈ STATUSES then
    let allowed_from := allowedFrom req.actor_role req.to_status
    if allowed_from.isEmpty then Except.ok (store, none)
    else
      match store.rides.find? (fun r => r.id == ride_id) with
      | none => Except.ok (store, none)
      | some r =>
        if r.status ∈ allowed_from then
          let updated := applyUpdate r req.to_status req.reason now
          Except.ok
            ({ rides := store.rides.map
                 (fun x => if x.id == ride_id then updated else x)
               history := store.history ++ [historyRow ride_id r.status req now] },
             some updated)
        else Except.ok (store, none)
  else Except.error "invalid status"

/-- The ride row inserted by `RideCrud.create`: the request's fields
plus `status = "requested"` (set by `setdefault`, unconditional because
`RideCreate` has no status field) and store defaults for everything
else.  `new_id` is the identifier the store assigns to the fresh row. -/
def newRide (o : RideCreate) (new_id now : Nat) : Ride :=
  { id := new_id
    client_id := o.client_id
    driver_profile_id := none
    status := "requested"
    status_reason := none
    scheduled_at := none
    started_at := none
    completed_at := none
    canceled_at := none
    cancellation_reason := none
    pickup_address := o.pickup_address
    pickup_lat := o.pickup_lat
    pickup_lng := o.pickup_lng
    dropoff_address := o.dropoff_address
    dropoff_lat := o.dropoff_lat
    dropoff_lng := o.dropoff_lng
    expected_fare := o.expected_fare
    expected_fare_snapshot := o.expected_fare_snapshot
    driver_fare := none
    actual_fare := none
    distance_meters := none
    duration_seconds := none
    transaction_id := none
    commission_id := none
    is_anomaly := false
    anomaly_reason := none
    ride_metadata := none
    created_at := now
    updated_at := now }

/-- The genesis history row of `RideCrud.create`: `from_status = None`,
`to_status = "requested"`, `changed_by = create_obj.client_id`,
`actor_role = "client"`, no reason and no metadata. -/
def genesisRow (o : RideCreate) (new_id now : Nat) : RideStatusHistory :=
  { ride_id := new_id
    from_status := none
    to_status := "requested"
    changed_by := o.client_id
    actor_role := "client"
    reason := none
    meta := none
    created_at := now }

/-- `RideCrud.create`: insert the ride row, then insert the genesis
history entry, returning the new ride. -/
def create (store : Store) (now : Nat) (new_id : Nat) (o : RideCreate) :
    Store × Ride :=
  ({ rides := store.rides ++ [newRide o new_id now]
     history := store.history ++ [genesisRow o new_id now] },
   newRide o new_id now)

/-- The first ride row with the given identifier (the row a `SELECT` by
primary key returns). -/
def rideFor (s : Store) (id : Nat) : Option Ride :=
  s.rides.find? (fun r => r.id == id)

/-- The history rows of one ride, in insertion order. -/
def historyFor (s : Store) (id : Nat) : List RideStatusHistory :=
  s.history.filter (fun h => h.ride_id == id)

/-- One engine invocation in a trace: its clock value, the targeted
ride and the request. -/
structure Call where
  now : Nat
  ride_id : Nat
  req : RideStatusChangeRequest
  deriving Repr, DecidableEq

/-- Run one `change_status` call against the store: a raised error
leaves the store untouched (the engine rejects before any store
access), and the boolean records whether the transition succeeded. -/
def applyCall (s : Store) (c : Call) : Store × Bool :=
  match change_status s c.now c.ride_id c.req with
  | Except.error _ => (s, false)
  | Except.ok (s', res) => (s', res.isSome)

/-- Run a list of calls, counting the successful transitions. -/
def runCalls : Store → List Call → Store × Nat
  | s, [] => (s, 0)
  | s, c :: cs =>
    let p := applyCall s c
    let q := runCalls p.1 cs
    (q.1, (if p.2 then 1 else 0) + q.2)

/-! ### Helper lemmas about the transition table -/

/-- The role lookup resolved into its four concrete outcomes. -/
lemma roleMap_eq (role : String) :
    roleMap role =
      if role = "client" then
        [("requested", ["canceled"]), ("driver_assigned", ["canceled"]),
         ("accepted", ["canceled"])]
      else if role = "driver" then
        [("driver_assigned", ["accepted", "canceled"]),
         ("accepted", ["arrived", "canceled"]),
         ("arrived", ["started", "canceled"]),
         ("started", ["completed", "canceled"])]
      else if role = "system" then
        [("requested", ["driver_assigned", "canceled"]),
         ("driver_assigned", ["accepted", "canceled"]),
         ("accepted", ["arrived", "canceled"]),
         ("arrived", ["started", "canceled"]),
         ("started", ["completed", "canceled"])]
      else [] := by
  unfold roleMap ALLOWED_TRANSITIONS
  simp only [List.lookup]
  repeat' split
  all_goals simp_all [beq_iff_eq]

/-- A key produced by the reverse filter is a key of the map. -/
lemma mem_filterMap_keys (m : List (String × List String)) (t x : String)
    (h : x ∈ m.filterMap (fun p => if t ∈ p.2 then some p.1 else none)) :
    x ∈ m.map Prod.fst := by
  rcases List.mem_filterMap.mp h with ⟨a, ha, hfa⟩
  split at hfa
  · cases hfa; exact List.mem_map.mpr ⟨a, ha, rfl⟩
  · cases hfa

/-- On an association list with distinct keys, membership in the
reverse filter agrees with the forward lookup. -/
lemma mem_filterMap_lookup (m : List (String × List String))
    (hm : (m.map Prod.fst).Nodup) (s t : String) :
    s ∈ m.filterMap (fun p => if t ∈ p.2 then some p.1 else none) ↔
      t ∈ ((m.lookup s).getD []) := by
  induction m with
  | nil => simp [List.lookup]
  | cons p m ih =>
    have hm' : (p.1 :: m.map Prod.fst).Nodup := by simpa using hm
    have hp : p.1 ∉ m.map Prod.fst := (List.nodup_cons.mp hm').1
    have hnd : (m.map Prod.fst).Nodup := (List.nodup_cons.mp hm').2
    rcases eq_or_ne s p.1 with hs | hs
    · have hb : (s == p.1) = true := beq_iff_eq.mpr hs
      have hl : List.lookup s (p :: m) = some p.2 := by
        simp [List.lookup, hb]
      rw [hl]
      by_cases ht : t ∈ p.2
      · rw [@List.filterMap_cons_some _ _
          (fun q => if t ∈ q.2 then some q.1 else none) p m p.1 (by simp [ht])]
        simp [hs, ht]
      · rw [@List.filterMap_cons_none _ _
          (fun q => if t ∈ q.2 then some q.1 else none) p m (by simp [ht])]
        simp only [Option.getD_some]
        constructor
        · intro hmem
          rw [hs] at hmem
          exact absurd (mem_filterMap_keys m t p.1 hmem) hp
        · intro hmem
          exact absurd hmem ht
    · have hb : (s == p.1) = false := beq_eq_false_iff_ne.mpr hs
      have hl : List.lookup s (p :: m) = List.lookup s m := by
        simp [List.lookup, hb]
      rw [hl]
      by_cases ht : t ∈ p.2
      · rw [@List.filterMap_cons_some _ _
          (fun q => if t ∈ q.2 then some q.1 else none) p m p.1 (by simp [ht])]
        rw [List.mem_cons, ← ih hnd]
        simp [hs]
      · rw [@List.filterMap_cons_none _ _
          (fun q => if t ∈ q.2 then some q.1 else none) p m (by simp [ht])]
        exact ih hnd

/-- Every role's transition map has distinct current-status keys. -/
lemma roleMap_keys_nodup (role : String) :
    ((roleMap role).map Prod.fst).Nodup := by
  rw [roleMap_eq]
  repeat' split
  all_goals decide

/-- The reverse query and the forward reading of `ALLOWED_TRANSITIONS`
agree, for every role, current and target status. -/
lemma mem_allowedFrom_iff (role s t : String) :
    s ∈ allowedFrom role t ↔ t ∈ forwardLookup role s := by
  unfold allowedFrom forwardLookup
  exact mem_filterMap_lookup (roleMap role) (roleMap_keys_nodup role) s t

/-! ### Outcome characterization of `change_status` -/

/-- The engine raises exactly on a target outside the status universe. -/
lemma change_status_error_iff (s : Store) (now rid : Nat)
    (req : RideStatusChangeRequest) :
    change_status s now rid req = Except.error "invalid status" ↔
      req.to_status ∉ STATUSES := by
  simp only [change_status]
  split
  · constructor
    · intro h
      split at h
      · simp at h
      · split at h
        · simp at h
        · split at h <;> simp at h
    · intro hn
      exact absurd (by assumption) hn
  · simp [*]

/-- Anatomy of a successful transition: the ride exists, its current
status is in the allowed-from set, the stored row is the updated row,
and exactly one history row is appended. -/
lemma change_status_success_elim
    (s : Store) (now rid : Nat) (req : RideStatusChangeRequest)
    (s' : Store) (r : Ride)
    (h : change_status s now rid req = Except.ok (s', some r)) :
    req.to_status ∈ STATUSES ∧
    ∃ r₀, rideFor s rid = some r₀ ∧
      r₀.status ∈ allowedFrom req.actor_role req.to_status ∧
      r = applyUpdate r₀ req.to_status req.reason now ∧
      s'.rides = s.rides.map (fun x => if x.id == rid then r else x) ∧
      s'.history = s.history ++ [historyRow rid r₀.status req now] := by
  simp only [change_status] at h
  split at h
  · refine ⟨by assumption, ?_⟩
    split at h
    · simp at h
    · split at h
      · simp at h
      · rename_i r₀ hfind
        split at h
        · rename_i hmem
          simp only [Except.ok.injEq, Prod.mk.injEq, Option.some.injEq] at h
          obtain ⟨hst, hrr⟩ := h
          subst hst
          subst hrr
          exact ⟨r₀, hfind, hmem, rfl, rfl, rfl⟩
        · simp at h
  · simp at h

/-- A rejected transition (returned `None`) leaves the store untouched. -/
lemma change_status_none_elim
    (s : Store) (now rid : Nat) (req : RideStatusChangeRequest)
    (s' : Store)
    (h : change_status s now rid req = Except.ok (s', none)) :
    s' = s := by
  simp only [change_status] at h
  split at h
  · split at h
    · simp only [Except.ok.injEq, Prod.mk.injEq] at h
      exact h.1.symm
    · split at h
      · simp only [Except.ok.injEq, Prod.mk.injEq] at h
        exact h.1.symm
      · split at h
        · simp at h
        · simp only [Except.ok.injEq, Prod.mk.injEq] at h
          exact h.1.symm
  · simp at h

/-! ### Store bookkeeping lemmas -/

/-- The physical update of the `rides` table: once some row matches the
identifier, the lookup after the conditional update returns the new
row. -/
lemma find?_map_update (l : List Ride) (rid : Nat) (r' : Ride)
    (hid : (r'.id == rid) = true)
    (hex : (l.find? (fun r => r.id == rid)).isSome) :
    (l.map (fun x => if x.id == rid then r' else x)).find?
        (fun r => r.id == rid) = some r' := by
  induction l with
  | nil => simp at hex
  | cons x l ih =>
    by_cases hx : (x.id == rid) = true
    · simp only [List.map_cons, if_pos hx]
      exact List.find?_cons_of_pos _ hid
    · simp only [List.map_cons, if_neg hx]
      rw [List.find?_cons_of_neg (p := fun (r : Ride) => r.id == rid) _ hx]
      apply ih
      rw [List.find?_cons_of_neg (p := fun (r : Ride) => r.id == rid) _ hx] at hex
      exact hex

/-- The updated row keeps its identifier. -/
lemma applyUpdate_id (r : Ride) (t : String) (re : Option String) (n : Nat) :
    (applyUpdate r t re n).id = r.id := rfl

/-- The updated row carries the requested status. -/
lemma applyUpdate_status (r : Ride) (t : String) (re : Option String) (n : Nat) :
    (applyUpdate r t re n).status = t := rfl

/-- History filtering after the audit append of a successful call. -/
lemma historyFor_append_own (l : List RideStatusHistory)
    (h : RideStatusHistory) (id : Nat) (hid : h.ride_id = id) :
    (List.filter (fun x => x.ride_id == id) (l ++ [h])) =
      (List.filter (fun x => x.ride_id == id) l) ++ [h] := by
  rw [List.filter_append]
  simp [List.filter, hid]

/-- Complete characterization of the reverse query: the only
(target, current) pairs any role may use.  In particular `"completed"`
and `"canceled"` never appear as a current status, and `"started"`,
`"completed"` are each reachable from a single prior status. -/
lemma allowedFrom_pairs (role s t : String) (h : s ∈ allowedFrom role t) :
    (t = "driver_assigned" ∧ s = "requested") ∨
    (t = "accepted" ∧ s = "driver_assigned") ∨
    (t = "arrived" ∧ s = "accepted") ∨
    (t = "started" ∧ s = "arrived") ∨
    (t = "completed" ∧ s = "started") ∨
    (t = "canceled" ∧ (s = "requested" ∨ s = "driver_assigned" ∨
      s = "accepted" ∨ s = "arrived" ∨ s = "started")) := by
  rw [mem_allowedFrom_iff] at h
  unfold forwardLookup at h
  rw [roleMap_eq] at h
  split at h
  · simp only [List.lookup] at h
    repeat' split at h
    all_goals simp_all [beq_iff_eq]
  · split at h
    · simp only [List.lookup] at h
      repeat' split at h
      all_goals simp_all [beq_iff_eq]
    · split at h
      · simp only [List.lookup] at h
        repeat' split at h
        all_goals simp_all [beq_iff_eq]
      · simp [List.lookup] at h

/-! ### The ride/history pairing invariant -/

/-- The pairing invariant of the lifecycle engine: the ride exists and
its current status equals the `to_status` of its most recent history
entry. -/
def PairInv (s : Store) (id : Nat) : Prop :=
  ∃ r h, rideFor s id = some r ∧ (historyFor s id).getLast? = some h ∧
    r.status = h.to_status

/-- One engine call preserves the pairing invariant and grows the
ride's history by exactly its success count. -/
lemma applyCall_pair_step (s : Store) (c : Call) (id : Nat)
    (hcid : c.ride_id = id) (hinv : PairInv s id) :
    PairInv (applyCall s c).1 id ∧
    (historyFor (applyCall s c).1 id).length =
      (historyFor s id).length + (if (applyCall s c).2 then 1 else 0) := by
  unfold applyCall
  cases hcs : change_status s c.now c.ride_id c.req with
  | error e => exact ⟨hinv, by simp⟩
  | ok p =>
    obtain ⟨s', res⟩ := p
    cases res with
    | none =>
      have hs := change_status_none_elim _ _ _ _ _ hcs
      subst hs
      exact ⟨hinv, by simp⟩
    | some r =>
      obtain ⟨hst, r₀, hfind, hmem, hr, hrides, hhist⟩ :=
        change_status_success_elim _ _ _ _ _ _ hcs
      subst hcid
      have hfind' : (s.rides.find? (fun x => x.id == c.ride_id)).isSome := by
        unfold rideFor at hfind
        rw [hfind]
        rfl
      have hhist' : historyFor s' c.ride_id =
          historyFor s c.ride_id ++ [historyRow c.ride_id r₀.status c.req c.now] := by
        unfold historyFor
        rw [hhist]
        exact historyFor_append_own _ _ _ rfl
      have hride' : rideFor s' c.ride_id = some r := by
        unfold rideFor
        rw [hrides]
        apply find?_map_update
        · rw [hr, applyUpdate_id]
          exact List.find?_some (p := fun (x : Ride) => x.id == c.ride_id)
            (by unfold rideFor at hfind; exact hfind)
        · exact hfind'
      constructor
      · refine ⟨r, historyRow c.ride_id r₀.status c.req c.now, by simpa using hride', ?_, ?_⟩
        · show (historyFor s' c.ride_id).getLast? = _
          rw [hhist']
          exact List.getLast?_concat _
        · rw [hr, applyUpdate_status]
          rfl
      · show (historyFor s' c.ride_id).length = _
        rw [hhist']
        simp

/-- Running a list of calls against a ride satisfying the pairing
invariant preserves it, and the ride's history grows by exactly the
number of successful transitions. -/
lemma runCalls_pair (id : Nat) (cs : List Call) :
    ∀ s : Store, (∀ c ∈ cs, c.ride_id = id) → PairInv s id →
      PairInv (runCalls s cs).1 id ∧
      (historyFor (runCalls s cs).1 id).length =
        (historyFor s id).length + (runCalls s cs).2 := by
  induction cs with
  | nil => intro s _ hinv; exact ⟨hinv, by simp [runCalls]⟩
  | cons c cs ih =>
    intro s hcs hinv
    obtain ⟨hinv1, hlen1⟩ := applyCall_pair_step s c id (hcs c (by simp)) hinv
    obtain ⟨hinv2, hlen2⟩ :=
      ih (applyCall s c).1 (fun d hd => hcs d (by simp [hd])) hinv1
    constructor
    · show PairInv (runCalls s (c :: cs)).1 id
      simp only [runCalls]
      exact hinv2
    · show (historyFor (runCalls s (c :: cs)).1 id).length = _
      simp only [runCalls]
      rw [hlen2, hlen1]
      cases (applyCall s c).2 <;> (simp; try omega)

/-- Creation of a fresh ride establishes the pairing invariant with the
genesis entry as the single history row. -/
lemma create_establishes (s : Store) (now id : Nat) (o : RideCreate)
    (hr : rideFor s id = none) (hh : historyFor s id = []) :
    PairInv (create s now id o).1 id ∧
    historyFor (create s now id o).1 id = [genesisRow o id now] ∧
    rideFor (create s now id o).1 id = some (newRide o id now) := by
  have hride : rideFor (create s now id o).1 id = some (newRide o id now) := by
    unfold rideFor at hr
    unfold rideFor create
    simp only [List.find?_append, hr]
    simp [newRide]
  have hhist : historyFor (create s now id o).1 id = [genesisRow o id now] := by
    unfold historyFor at hh
    unfold historyFor create
    simp only [List.filter_append, hh]
    simp [genesisRow]
  exact ⟨⟨newRide o id now, genesisRow o id now, hride, by rw [hhist]; rfl, rfl⟩,
    hhist, hride⟩

/-! ### Claim C1 -/

/-- C1: every successful `change_status` call appends exactly one
history entry in the same atomic unit as the ride update, and a
zero-row conditional update writes no history entry and leaves the
store untouched; consequently, for a ride created fresh and driven by
any sequence of transition calls, the ride's status equals the
`to_status` of its most recently created history entry, and the number
of its history entries equals 1 (genesis) plus the number of successful
transitions. -/
theorem change_status_history_pairing
    (s₀ : Store) (now₀ id : Nat) (o : RideCreate) (cs : List Call)
    (hr : rideFor s₀ id = none) (hh : historyFor s₀ id = [])
    (hcs : ∀ c ∈ cs, c.ride_id = id) :
    (∀ (s : Store) (now rid : Nat) (req : RideStatusChangeRequest)
        (s' : Store) (r : Ride),
        change_status s now rid req = Except.ok (s', some r) →
        ∃ h, s'.history = s.history ++ [h] ∧ h.ride_id = rid ∧
          h.to_status = r.status) ∧
    (∀ (s : Store) (now rid : Nat) (req : RideStatusChangeRequest)
        (s' : Store),
        change_status s now rid req = Except.ok (s', none) → s' = s) ∧
    (∀ sN k, runCalls (create s₀ now₀ id o).1 cs = (sN, k) →
        (historyFor sN id).length = 1 + k ∧
        ∃ r h, rideFor sN id = some r ∧ (historyFor sN id).getLast? = some h ∧
          r.status = h.to_status) := by
  refine ⟨?_, ?_, ?_⟩
  · intro s now rid req s' r h
    obtain ⟨_, r₀, _, _, hru, _, hhist⟩ := change_status_success_elim _ _ _ _ _ _ h
    exact ⟨historyRow rid r₀.status req now, hhist, rfl,
      by rw [hru, applyUpdate_status]; rfl⟩
  · intro s now rid req s' h
    exact change_status_none_elim _ _ _ _ _ h
  · intro sN k hrun
    obtain ⟨hc1, hc2, _⟩ := create_establishes s₀ now₀ id o hr hh
    obtain ⟨hinv, hlen⟩ := runCalls_pair id cs _ hcs hc1
    rw [hrun] at hinv hlen
    refine ⟨?_, hinv⟩
    rw [hlen, hc2]
    simp [Nat.add_comm]

/-- A concrete creation request used by the witnesses. -/
def sampleCreate : RideCreate :=
  { client_id := 7, pickup_address := "A", pickup_lat := 1, pickup_lng := 2,
    dropoff_address := "B", dropoff_lat := 3, dropoff_lng := 4,
    expected_fare := 100, expected_fare_snapshot := none }

/-- A concrete cancellation request by the client, with a reason. -/
def cancelReq : RideStatusChangeRequest :=
  { to_status := "canceled", actor_role := "client", actor_id := 7,
    reason := some "changed my mind", meta := none }

theorem change_status_history_pairing_witness :
    rideFor emptyStore 1 = none ∧ historyFor emptyStore 1 = [] ∧
    (∀ c ∈ [Call.mk 1 1 cancelReq], c.ride_id = 1) ∧
    ((∀ (s : Store) (now rid : Nat) (req : RideStatusChangeRequest)
        (s' : Store) (r : Ride),
        change_status s now rid req = Except.ok (s', some r) →
        ∃ h, s'.history = s.history ++ [h] ∧ h.ride_id = rid ∧
          h.to_status = r.status) ∧
    (∀ (s : Store) (now rid : Nat) (req : RideStatusChangeRequest)
        (s' : Store),
        change_status s now rid req = Except.ok (s', none) → s' = s) ∧
    (∀ sN k,
        runCalls (create emptyStore 0 1 sampleCreate).1 [Call.mk 1 1 cancelReq] = (sN, k) →
        (historyFor sN 1).length = 1 + k ∧
        ∃ r h, rideFor sN 1 = some r ∧ (historyFor sN 1).getLast? = some h ∧
          r.status = h.to_status)) :=
  ⟨rfl, rfl, by decide,
    change_status_history_pairing emptyStore 0 1 sampleCreate
      [Call.mk 1 1 cancelReq] rfl rfl (by decide)⟩

/-! ### Claim C7 -/

/-- C7: for every (role, target_status), the set of current statuses
computed by the reverse query of `change_status` equals the set of
current statuses whose forward table entry contains the target — the
two directions of `ALLOWED_TRANSITIONS` never drift. -/
theorem reverse_query_matches_forward (role s t : String) :
    s ∈ allowedFrom role t ↔ t ∈ forwardLookup role s :=
  mem_allowedFrom_iff role s t

/-! ### Claim C3 -/

/-- The spec's role-keyed transition table (§4.1), transcribed from the
spec's words: unlisted (role, current) pairs permit nothing, and the
terminal statuses have no rows. -/
def specTransitionTable (role current : String) : List String :=
  if role = "client" then
    if current = "requested" then ["canceled"]
    else if current = "driver_assigned" then ["canceled"]
    else if current = "accepted" then ["canceled"]
    else []
  else if role = "driver" then
    if current = "driver_assigned" then ["accepted", "canceled"]
    else if current = "accepted" then ["arrived", "canceled"]
    else if current = "arrived" then ["started", "canceled"]
    else if current = "started" then ["completed", "canceled"]
    else []
  else if role = "system" then
    if current = "requested" then ["driver_assigned", "canceled"]
    else if current = "driver_assigned" then ["accepted", "canceled"]
    else if current = "accepted" then ["arrived", "canceled"]
    else if current = "arrived" then ["started", "canceled"]
    else if current = "started" then ["completed", "canceled"]
    else []
  else []

set_option maxHeartbeats 2000000 in
/-- C3: the code's transition policy equals the spec's role-keyed table
exactly — for every role, current and target status a transition is
permitted iff the spec's table lists it, unlisted pairs permit nothing,
and the terminal statuses `completed` and `canceled` permit no outgoing
transition for any role. -/
theorem transition_policy_matches_spec :
    (∀ role current target : String,
        target ∈ forwardLookup role current ↔
          target ∈ specTransitionTable role current) ∧
    (∀ role target : String,
        target ∉ forwardLookup role "completed" ∧
        target ∉ forwardLookup role "canceled") := by
  constructor
  · intro role current target
    by_cases h1 : role = "client"
    · simp only [forwardLookup, specTransitionTable, roleMap_eq, h1,
        reduceIte, List.lookup]
      repeat' split
      all_goals simp_all [beq_iff_eq]
    · by_cases h2 : role = "driver"
      · simp only [forwardLookup, specTransitionTable, roleMap_eq, h1, h2,
          reduceIte, List.lookup]
        repeat' split
        all_goals simp_all [beq_iff_eq]
      · by_cases h3 : role = "system"
        · simp only [forwardLookup, specTransitionTable, roleMap_eq, h1, h2, h3,
            reduceIte, List.lookup]
          repeat' split
          all_goals simp_all [beq_iff_eq]
        · simp [forwardLookup, specTransitionTable, roleMap_eq, h1, h2, h3,
            List.lookup]
  · intro role target
    constructor
    · intro hmem
      have h := allowedFrom_pairs role "completed" target
        ((mem_allowedFrom_iff role "completed" target).mpr hmem)
      simp at h
    · intro hmem
      have h := allowedFrom_pairs role "canceled" target
        ((mem_allowedFrom_iff role "canceled" target).mpr hmem)
      simp at h

/-! ### Claim C6 -/

/-- C6: for every input, creation assigns status `requested`
unconditionally and appends a genesis history entry with
`from_status = null`, `to_status = requested`, `changed_by` the client's
identifier and `actor_role = client`. -/
theorem create_assigns_requested (s : Store) (now id : Nat) (o : RideCreate) :
    (create s now id o).2.status = "requested" ∧
    (create s now id o).1.history = s.history ++ [genesisRow o id now] ∧
    (genesisRow o id now).from_status = none ∧
    (genesisRow o id now).to_status = "requested" ∧
    (genesisRow o id now).changed_by = o.client_id ∧
    (genesisRow o id now).actor_role = "client" :=
  ⟨rfl, rfl, rfl, rfl, rfl, rfl⟩

/-! ### Claim C8 -/

/-- C8: a target status outside the fixed status set is rejected
immediately with the `invalid status` error, before any store access,
and no store write occurs. -/
theorem invalid_status_rejected (s : Store) (now rid : Nat)
    (req : RideStatusChangeRequest) (h : req.to_status ∉ STATUSES) :
    change_status s now rid req = Except.error "invalid status" ∧
    applyCall s (Call.mk now rid req) = (s, false) := by
  have he := (change_status_error_iff s now rid req).mpr h
  exact ⟨he, by simp [applyCall, he]⟩

/-- The spec's concrete unknown-target example. -/
def teleportReq : RideStatusChangeRequest :=
  { to_status := "teleported", actor_role := "client", actor_id := 1,
    reason := none, meta := none }

theorem invalid_status_rejected_witness :
    teleportReq.to_status ∉ STATUSES ∧
    (change_status emptyStore 0 1 teleportReq = Except.error "invalid status" ∧
     applyCall emptyStore (Call.mk 0 1 teleportReq) = (emptyStore, false)) :=
  ⟨by decide, invalid_status_rejected emptyStore 0 1 teleportReq (by decide)⟩

/-! ### Claim C9 -/

/-- C9: a role outside client/driver/system with a valid target status
is rejected without an exception and without any store write: the call
returns `None` and the store (ride rows and history rows) is exactly
the input store. -/
theorem unknown_role_rejected (s : Store) (now rid : Nat)
    (req : RideStatusChangeRequest)
    (hrole : req.actor_role ∉ ["client", "driver", "system"])
    (hts : req.to_status ∈ STATUSES) :
    change_status s now rid req = Except.ok (s, none) ∧
    applyCall s (Call.mk now rid req) = (s, false) := by
  have hmap : roleMap req.actor_role = [] := by
    rw [roleMap_eq]
    simp only [List.mem_cons, List.not_mem_nil, or_false, not_or] at hrole
    simp [hrole.1, hrole.2.1, hrole.2.2]
  have haf : allowedFrom req.actor_role req.to_status = [] := by
    unfold allowedFrom
    rw [hmap]
    rfl
  have hok : change_status s now rid req = Except.ok (s, none) := by
    simp [change_status, hts, haf]
  exact ⟨hok, by simp [applyCall, hok]⟩

/-- A concrete request with an unknown role. -/
def adminReq : RideStatusChangeRequest :=
  { to_status := "canceled", actor_role := "admin", actor_id := 1,
    reason := none, meta := none }

theorem unknown_role_rejected_witness :
    adminReq.actor_role ∉ ["client", "driver", "system"] ∧
    adminReq.to_status ∈ STATUSES ∧
    (change_status emptyStore 0 1 adminReq = Except.ok (emptyStore, none) ∧
     applyCall emptyStore (Call.mk 0 1 adminReq) = (emptyStore, false)) :=
  ⟨by decide, by decide,
    unknown_role_rejected emptyStore 0 1 adminReq (by decide) (by decide)⟩

/-! ### Claim C10 -/

/-- C10: every successful `change_status` call overwrites the stored
ride's `status_reason` with the request's reason, whatever the target
status — including writing `null` when no reason is supplied — so
`status_reason` always reflects the most recent transition. -/
theorem status_reason_overwritten (s : Store) (now rid : Nat)
    (req : RideStatusChangeRequest) (s' : Store) (r : Ride)
    (h : change_status s now rid req = Except.ok (s', some r)) :
    r.status_reason = req.reason ∧ rideFor s' rid = some r := by
  obtain ⟨hst, r₀, hfind, hmem, hru, hrides, hhist⟩ :=
    change_status_success_elim _ _ _ _ _ _ h
  constructor
  · rw [hru]
    rfl
  · unfold rideFor
    rw [hrides]
    apply find?_map_update
    · rw [hru, applyUpdate_id]
      exact List.find?_some (p := fun (x : Ride) => x.id == rid)
        (by unfold rideFor at hfind; exact hfind)
    · unfold rideFor at hfind
      rw [hfind]
      rfl

/-- One engine call, keeping only the store (used to chain concrete
scenarios in witnesses). -/
def stepStore (s : Store) (now rid : Nat)
    (req : RideStatusChangeRequest) : Store :=
  (applyCall s (Call.mk now rid req)).1

/-- The system assigns a driver, with a reason recorded. -/
def assignReq : RideStatusChangeRequest :=
  { to_status := "driver_assigned", actor_role := "system", actor_id := 0,
    reason := some "auto", meta := none }

/-- The driver accepts, supplying no reason. -/
def acceptNoReasonReq : RideStatusChangeRequest :=
  { to_status := "accepted", actor_role := "driver", actor_id := 9,
    reason := none, meta := none }

theorem status_reason_overwritten_witness :
    ∃ s' r,
      change_status
          (stepStore (create emptyStore 0 1 sampleCreate).1 1 1 assignReq)
          2 1 acceptNoReasonReq = Except.ok (s', some r) ∧
      (r.status_reason = acceptNoReasonReq.reason ∧ rideFor s' 1 = some r) :=
  ⟨_, _, rfl,
    status_reason_overwritten
      (stepStore (create emptyStore 0 1 sampleCreate).1 1 1 assignReq)
      2 1 acceptNoReasonReq _ _ rfl⟩

/-! ### Claim C2 -/

/-- A driver's attempt to complete a ride. -/
def driverCompleteReq : RideStatusChangeRequest :=
  { to_status := "completed", actor_role := "driver", actor_id := 9,
    reason := none, meta := none }

/-- The store holding exactly one fresh ride, number 1. -/
def c2store : Store := (create emptyStore 0 1 sampleCreate).1

/-- Counterexample to C2: ride 1 exists (in status `requested`, not an
eligible current status for the driver's `completed` request) and ride 2
does not exist, yet both calls return the identical untyped `None`
result — the engine does not give the caller distinguishable
`RoleNotPermitted` / `NoMatchingRide` / `TransitionRejected` values, it
signals every post-validation failure as the same silent `None`. -/
theorem distinguishable_errors_counterexample :
    rideFor c2store 1 = some (newRide sampleCreate 1 0) ∧
    rideFor c2store 2 = none ∧
    change_status c2store 1 1 driverCompleteReq = Except.ok (c2store, none) ∧
    change_status c2store 1 2 driverCompleteReq = Except.ok (c2store, none) :=
  ⟨rfl, rfl, rfl, rfl⟩

/-- C2 (amended): a failing `change_status` call is signalled — a target
outside the status set raises the typed `invalid status` error before
any store access, and every other failure (role cannot reach the
target, ride absent, ride in an ineligible status) returns `None` with
the store untouched; that `None` is distinguishable from success but
does not distinguish ride-not-found from ride-found-but-ineligible. -/
theorem failure_signalling (s : Store) (now rid : Nat)
    (req : RideStatusChangeRequest) :
    (req.to_status ∉ STATUSES →
      change_status s now rid req = Except.error "invalid status") ∧
    (req.to_status ∈ STATUSES →
      allowedFrom req.actor_role req.to_status = [] →
      change_status s now rid req = Except.ok (s, none)) ∧
    (req.to_status ∈ STATUSES → rideFor s rid = none →
      change_status s now rid req = Except.ok (s, none)) ∧
    (∀ r₀, req.to_status ∈ STATUSES → rideFor s rid = some r₀ →
      r₀.status ∉ allowedFrom req.actor_role req.to_status →
      change_status s now rid req = Except.ok (s, none)) := by
  refine ⟨?_, ?_, ?_, ?_⟩
  · exact fun h => (change_status_error_iff s now rid req).mpr h
  · intro hts haf
    simp [change_status, hts, haf]
  · intro hts hr
    unfold rideFor at hr
    by_cases haf : (allowedFrom req.actor_role req.to_status).isEmpty
    · simp [change_status, hts, haf]
    · simp [change_status, hts, haf, hr]
  · intro r₀ hts hr hmem
    unfold rideFor at hr
    by_cases haf : (allowedFrom req.actor_role req.to_status).isEmpty
    · simp [change_status, hts, haf]
    · simp [change_status, hts, haf, hr, hmem]

theorem failure_signalling_witness :
    (driverCompleteReq.to_status ∈ STATUSES ∧ rideFor c2store 2 = none) ∧
    change_status c2store 1 2 driverCompleteReq = Except.ok (c2store, none) :=
  ⟨⟨by decide, rfl⟩,
    (failure_signalling c2store 1 2 driverCompleteReq).2.2.1 (by decide) rfl⟩

/-! ### Ride-level invariants along traces -/

/-- A ride-row property preserved by every successful transition. -/
def RideInvStep (P : Ride → Prop) : Prop :=
  ∀ (s : Store) (now rid : Nat) (req : RideStatusChangeRequest)
    (s' : Store) (r r₀ : Ride),
    rideFor s rid = some r₀ → P r₀ →
    change_status s now rid req = Except.ok (s', some r) → P r

/-- One call targeting the ride preserves any step-preserved row
property of that ride. -/
lemma applyCall_ride_inv (P : Ride → Prop) (hstep : RideInvStep P)
    (s : Store) (c : Call) (id : Nat) (hcid : c.ride_id = id)
    (hbase : ∀ r, rideFor s id = some r → P r) :
    ∀ r, rideFor (applyCall s c).1 id = some r → P r := by
  subst hcid
  intro r hr
  revert hr
  unfold applyCall
  cases hcs : change_status s c.now c.ride_id c.req with
  | error e =>
    intro hr
    exact hbase r hr
  | ok p =>
    obtain ⟨s', res⟩ := p
    cases res with
    | none =>
      intro hr
      have hse := change_status_none_elim _ _ _ _ _ hcs
      subst hse
      exact hbase r hr
    | some ru =>
      intro hr
      obtain ⟨hst, r₀, hfind, hmem, hru, hrides, hhist⟩ :=
        change_status_success_elim _ _ _ _ _ _ hcs
      have hride' : rideFor s' c.ride_id = some ru := by
        unfold rideFor
        rw [hrides]
        apply find?_map_update
        · rw [hru, applyUpdate_id]
          exact List.find?_some (p := fun (x : Ride) => x.id == c.ride_id)
            (by unfold rideFor at hfind; exact hfind)
        · unfold rideFor at hfind
          rw [hfind]
          rfl
      rw [hride'] at hr
  -- the looked-up row after the call is exactly the updated row
      cases hr
      exact hstep s c.now c.ride_id c.req s' r r₀ hfind (hbase r₀ hfind) hcs

/-- Running any sequence of calls against the ride preserves a
step-preserved row property. -/
lemma runCalls_preserves (P : Ride → Prop) (hstep : RideInvStep P)
    (id : Nat) (cs : List Call) :
    ∀ s : Store, (∀ c ∈ cs, c.ride_id = id) →
      (∀ r, rideFor s id = some r → P r) →
      ∀ r, rideFor (runCalls s cs).1 id = some r → P r := by
  induction cs with
  | nil =>
    intro s _ hbase r hr
    exact hbase r (by simpa [runCalls] using hr)
  | cons c cs ih =>
    intro s hcs hbase
    have h1 := applyCall_ride_inv P hstep s c id (hcs c (by simp)) hbase
    have h2 := ih (applyCall s c).1 (fun d hd => hcs d (by simp [hd])) h1
    intro r hr
    apply h2
    simpa [runCalls] using hr

/-- Looking up the fresh ride right after creation. -/
lemma create_rideFor (s : Store) (now id : Nat) (o : RideCreate)
    (hr : rideFor s id = none) :
    rideFor (create s now id o).1 id = some (newRide o id now) := by
  unfold rideFor at hr
  unfold rideFor create
  simp only [List.find?_append, hr]
  simp [newRide]

/-! ### Claim C5 -/

/-- The half of the spec's cancellation invariant that the code upholds:
a non-null `cancellation_reason` only occurs on a canceled ride. -/
def CancelInv (r : Ride) : Prop :=
  r.cancellation_reason.isSome → r.status = "canceled"

/-- An option forced to `none` by an implication with false conclusion. -/
lemma opt_none_of_imp {α : Type} (o : Option α) (P : Prop)
    (h : o.isSome → P) (hnp : ¬ P) : o = none := by
  cases o with
  | none => rfl
  | some v => exact absurd (h rfl) hnp

/-- Successful transitions preserve `CancelInv`: the reason is written
into `cancellation_reason` only when the target is `canceled`, and a
canceled ride (where the field may already be set) has no outgoing
transitions. -/
lemma cancelInv_step : RideInvStep CancelInv := by
  intro s now rid req s' r r₀ hfind hP hcs
  obtain ⟨hst, r₁, hfind', hmem, hru, _, _⟩ :=
    change_status_success_elim _ _ _ _ _ _ hcs
  rw [hfind] at hfind'
  cases hfind'
  subst hru
  intro hsome
  by_cases hc : req.to_status = "canceled"
  · simp [applyUpdate, hc]
  · exfalso
    simp only [applyUpdate, hc, if_false, reduceIte] at hsome
    have hst' := hP hsome
    have hpairs := allowedFrom_pairs req.actor_role r₀.status req.to_status hmem
    rw [hst'] at hpairs
    simp at hpairs

/-- Counterexample to C5: a ride created fresh and then canceled by the
client with no reason supplied ends with status `canceled` and
`cancellation_reason = null`, violating "`cancellation_reason` is
non-null if and only if status = canceled". -/
def cancelNoReasonReq : RideStatusChangeRequest :=
  { to_status := "canceled", actor_role := "client", actor_id := 7,
    reason := none, meta := none }

theorem cancellation_reason_iff_counterexample :
    ∃ s' r,
      change_status (create emptyStore 0 1 sampleCreate).1 1 1
          cancelNoReasonReq = Except.ok (s', some r) ∧
      r.status = "canceled" ∧ r.cancellation_reason = none :=
  ⟨_, _, rfl, rfl, rfl⟩

/-- C5 (amended): for every ride state reachable through the creation
service and the lifecycle engine, `cancellation_reason` is non-null
only if the ride's status is `canceled`; on the transition to
`canceled` the field is set to the request's reason, which is nullable,
so the converse does not hold. -/
theorem cancellation_reason_only_if_canceled
    (s₀ : Store) (now₀ id : Nat) (o : RideCreate) (cs : List Call)
    (hr : rideFor s₀ id = none) (hcs : ∀ c ∈ cs, c.ride_id = id) :
    (∀ (s : Store) (now rid : Nat) (req : RideStatusChangeRequest)
        (s' : Store) (r r₀ : Ride),
        rideFor s rid = some r₀ → CancelInv r₀ →
        change_status s now rid req = Except.ok (s', some r) →
        CancelInv r ∧
          (req.to_status = "canceled" → r.cancellation_reason = req.reason)) ∧
    (∀ sN k, runCalls (create s₀ now₀ id o).1 cs = (sN, k) →
        ∀ r, rideFor sN id = some r → CancelInv r) := by
  constructor
  · intro s now rid req s' r r₀ hfind hP hcs'
    refine ⟨cancelInv_step s now rid req s' r r₀ hfind hP hcs', ?_⟩
    intro hc
    obtain ⟨_, r₁, hfind', _, hru, _, _⟩ :=
      change_status_success_elim _ _ _ _ _ _ hcs'
    rw [hfind] at hfind'
    cases hfind'
    subst hru
    simp [applyUpdate, hc]
  · intro sN k hrun r hrf
    have hbase : ∀ r, rideFor (create s₀ now₀ id o).1 id = some r →
        CancelInv r := by
      intro r hr'
      rw [create_rideFor s₀ now₀ id o hr] at hr'
      cases hr'
      intro hsome
      simp [newRide] at hsome
    have := runCalls_preserves CancelInv cancelInv_step id cs
      (create s₀ now₀ id o).1 hcs hbase r
    apply this
    rw [hrun]
    exact hrf

theorem cancellation_reason_only_if_canceled_witness :
    rideFor emptyStore 1 = none ∧
    (∀ c ∈ [Call.mk 1 1 cancelNoReasonReq], c.ride_id = 1) ∧
    ((∀ (s : Store) (now rid : Nat) (req : RideStatusChangeRequest)
        (s' : Store) (r r₀ : Ride),
        rideFor s rid = some r₀ → CancelInv r₀ →
        change_status s now rid req = Except.ok (s', some r) →
        CancelInv r ∧
          (req.to_status = "canceled" → r.cancellation_reason = req.reason)) ∧
    (∀ sN k,
        runCalls (create emptyStore 0 1 sampleCreate).1
            [Call.mk 1 1 cancelNoReasonReq] = (sN, k) →
        ∀ r, rideFor sN 1 = some r → CancelInv r)) :=
  ⟨rfl, by decide,
    cancellation_reason_only_if_canceled emptyStore 0 1 sampleCreate
      [Call.mk 1 1 cancelNoReasonReq] rfl (by decide)⟩

/-! ### Claim C4 -/

/-- The timestamp invariant of reachable ride rows: each side-effect
timestamp is only populated once the corresponding status has been
entered (hence is still null beforehand). -/
def TimestampInv (r : Ride) : Prop :=
  (r.started_at.isSome →
    r.status = "started" ∨ r.status = "completed" ∨ r.status = "canceled") ∧
  (r.completed_at.isSome → r.status = "completed") ∧
  (r.canceled_at.isSome → r.status = "canceled")

/-- Successful transitions preserve the timestamp invariant and never
overwrite an already-set timestamp: the `CASE WHEN` clauses only write
on entry into `started` / `completed` / `canceled`, and the allowed-from
sets make each of those entries possible only from a status in which
the field is still null. -/
lemma timestampInv_step (s : Store) (now rid : Nat)
    (req : RideStatusChangeRequest) (s' : Store) (r r₀ : Ride)
    (hfind : rideFor s rid = some r₀) (hP : TimestampInv r₀)
    (hcs : change_status s now rid req = Except.ok (s', some r)) :
    ((r₀.started_at.isSome → r.started_at = r₀.started_at) ∧
     (r₀.completed_at.isSome → r.completed_at = r₀.completed_at) ∧
     (r₀.canceled_at.isSome → r.canceled_at = r₀.canceled_at)) ∧
    TimestampInv r := by
  obtain ⟨hst, r₁, hfind', hmem, hru, _, _⟩ :=
    change_status_success_elim _ _ _ _ _ _ hcs
  rw [hfind] at hfind'
  cases hfind'
  subst hru
  obtain ⟨hP1, hP2, hP3⟩ := hP
  rcases allowedFrom_pairs _ _ _ hmem with
    ⟨ht, hs⟩ | ⟨ht, hs⟩ | ⟨ht, hs⟩ | ⟨ht, hs⟩ | ⟨ht, hs⟩ | ⟨ht, hs⟩
  all_goals try rcases hs with hs | hs | hs | hs | hs
  all_goals
    have h2 : r₀.completed_at = none := opt_none_of_imp _ _ hP2 (by simp [hs])
  all_goals
    have h3 : r₀.canceled_at = none := opt_none_of_imp _ _ hP3 (by simp [hs])
  all_goals
    first
      | (simp [applyUpdate, TimestampInv, ht, hs, h2, h3]; done)
      | (have h1 : r₀.started_at = none :=
          opt_none_of_imp _ _ hP1 (by simp [hs])
         simp [applyUpdate, TimestampInv, ht, hs, h1, h2, h3])

/-- No role's reverse query ever lists `completed` as a current status. -/
lemma status_completed_not_in_allowedFrom (role t : String) :
    "completed" ∉ allowedFrom role t := by
  intro hmem
  have h := allowedFrom_pairs role "completed" t hmem
  simp at h

/-- A `completed` ride rejects a second `completed` request: the call
returns `None` and the store — in particular `completed_at` — is
exactly the input store. -/
lemma completed_twice_rejected (s : Store) (now rid : Nat)
    (req : RideStatusChangeRequest) (r₀ : Ride)
    (hfind : rideFor s rid = some r₀) (hst0 : r₀.status = "completed")
    (hts : req.to_status = "completed") :
    change_status s now rid req = Except.ok (s, none) := by
  have hmem' : r₀.status ∉ allowedFrom req.actor_role req.to_status := by
    rw [hst0]
    exact status_completed_not_in_allowedFrom _ _
  have hstm : req.to_status ∈ STATUSES := by rw [hts]; decide
  unfold rideFor at hfind
  by_cases haf : (allowedFrom req.actor_role req.to_status).isEmpty
  · simp [change_status, hstm, haf]
  · simp [change_status, hstm, haf, hfind, hmem']

/-- C4: `started_at` / `completed_at` / `canceled_at` are null at
creation, are only populated on first entry into the corresponding
status, and once set are never overwritten by any successful
transition; a second request for `completed` on a ride already in
`completed` is rejected with the store (hence `completed_at`) left
unchanged; and every state reachable from creation through the engine
satisfies the timestamp invariant. -/
theorem timestamps_write_once
    (s₀ : Store) (now₀ id : Nat) (o : RideCreate) (cs : List Call)
    (hr : rideFor s₀ id = none) (hcs : ∀ c ∈ cs, c.ride_id = id) :
    ((newRide o id now₀).started_at = none ∧
     (newRide o id now₀).completed_at = none ∧
     (newRide o id now₀).canceled_at = none) ∧
    (∀ (s : Store) (now rid : Nat) (req : RideStatusChangeRequest)
        (s' : Store) (r r₀ : Ride),
        rideFor s rid = some r₀ → TimestampInv r₀ →
        change_status s now rid req = Except.ok (s', some r) →
        ((r₀.started_at.isSome → r.started_at = r₀.started_at) ∧
         (r₀.completed_at.isSome → r.completed_at = r₀.completed_at) ∧
         (r₀.canceled_at.isSome → r.canceled_at = r₀.canceled_at)) ∧
        TimestampInv r) ∧
    (∀ (s : Store) (now rid : Nat) (req : RideStatusChangeRequest)
        (r₀ : Ride),
        rideFor s rid = some r₀ → r₀.status = "completed" →
        req.to_status = "completed" →
        change_status s now rid req = Except.ok (s, none)) ∧
    (∀ sN k, runCalls (create s₀ now₀ id o).1 cs = (sN, k) →
        ∀ r, rideFor sN id = some r → TimestampInv r) := by
  refine ⟨⟨rfl, rfl, rfl⟩, ?_, ?_, ?_⟩
  · intro s now rid req s' r r₀ hfind hP hcs'
    exact timestampInv_step s now rid req s' r r₀ hfind hP hcs'
  · intro s now rid req r₀ hfind hst0 hts
    exact completed_twice_rejected s now rid req r₀ hfind hst0 hts
  · intro sN k hrun r hrf
    have hstep : RideInvStep TimestampInv := by
      intro s now rid req s' r r₀ hfind hP hcs'
      exact (timestampInv_step s now rid req s' r r₀ hfind hP hcs').2
    have hbase : ∀ r, rideFor (create s₀ now₀ id o).1 id = some r →
        TimestampInv r := by
      intro r hr'
      rw [create_rideFor s₀ now₀ id o hr] at hr'
      cases hr'
      exact ⟨by simp [newRide], by simp [newRide], by simp [newRide]⟩
    have := runCalls_preserves TimestampInv hstep id cs
      (create s₀ now₀ id o).1 hcs hbase r
    apply this
    rw [hrun]
    exact hrf

theorem timestamps_write_once_witness :
    rideFor emptyStore 1 = none ∧
    (∀ c ∈ [Call.mk 1 1 assignReq], c.ride_id = 1) ∧
    (((newRide sampleCreate 1 0).started_at = none ∧
      (newRide sampleCreate 1 0).completed_at = none ∧
      (newRide sampleCreate 1 0).canceled_at = none) ∧
    (∀ (s : Store) (now rid : Nat) (req : RideStatusChangeRequest)
        (s' : Store) (r r₀ : Ride),
        rideFor s rid = some r₀ → TimestampInv r₀ →
        change_status s now rid req = Except.ok (s', some r) →
        ((r₀.started_at.isSome → r.started_at = r₀.started_at) ∧
         (r₀.completed_at.isSome → r.completed_at = r₀.completed_at) ∧
         (r₀.canceled_at.isSome → r.canceled_at = r₀.canceled_at)) ∧
        TimestampInv r) ∧
    (∀ (s : Store) (now rid : Nat) (req : RideStatusChangeRequest)
        (r₀ : Ride),
        rideFor s rid = some r₀ → r₀.status = "completed" →
        req.to_status = "completed" →
        change_status s now rid req = Except.ok (s, none)) ∧
    (∀ sN k,
        runCalls (create emptyStore 0 1 sampleCreate).1
            [Call.mk 1 1 assignReq] = (sN, k) →
        ∀ r, rideFor sN 1 = some r → TimestampInv r)) :=
  ⟨rfl, by decide,
    timestamps_write_once emptyStore 0 1 sampleCreate
      [Call.mk 1 1 assignReq] rfl (by decide)⟩
